import Mathlib

/-!
Verification development for the JobHub job control plane.

Shallow embedding of the data model and operations of the source tree:
status enums and the task runners (src/server/task.rs), the job registry
(src/server/state.rs), the Google-Drive URL helper (src/server/utils.rs),
the API error mapping (src/server/response.rs) and the file-serving
operations, together with theorems about them.
-/

namespace JobHub

/-! ## Status data model (src/server/task.rs, lines 10-63) -/

/-- Where did the task fail (task.rs `FailOperation`). -/
inductive FailOperation where
  | OnSpawn
  | AfterTimeoutOnKill
  | AfterTimeoutOnWait
  | AfterCancelOnKill
  | AfterCancelOnWait
  | OnWait
deriving DecidableEq, Repr

/-- Exit classification of a finished child process (task.rs `ExitedStatus`). -/
inductive ExitedStatus where
  | Success
  | Failure (code : Option Int)
deriving DecidableEq, Repr

/-- Status of a Process job (task.rs `ProcessStatus`). -/
inductive ProcessStatus where
  | Created
  | Failed (operation : FailOperation)
  | Running
  | Canceled
  | Exited (exit_status : ExitedStatus)
  | Timeout
deriving DecidableEq, Repr

/-- Status of a Download job (task.rs `DownloadZipFileStatus`). -/
inductive DownloadZipFileStatus where
  | Created
  | Failed (reason : String)
  | Running
  | Canceled
  | Exited
  | Timeout
deriving DecidableEq, Repr

/-- Top-level status variant (task.rs `Status`). -/
inductive Status where
  | Download (s : DownloadZipFileStatus)
  | Process (s : ProcessStatus)
deriving DecidableEq, Repr

/-- Result of `std::process::ExitStatus` as observed by the runner: the
`success()` flag and the optional exit `code()`. -/
structure ExitStatus where
  success : Bool
  code : Option Int
deriving DecidableEq, Repr

/-- task.rs lines 65-74: `impl From<ExitStatus> for ExitedStatus`. -/
def ExitedStatus.fromExitStatus (exit_status : ExitStatus) : ExitedStatus :=
  if exit_status.success then ExitedStatus.Success
  else ExitedStatus.Failure exit_status.code

/-- task.rs lines 76-82: `impl From<ExitStatus> for ProcessStatus`. -/
def ProcessStatus.fromExitStatus (exit_status : ExitStatus) : ProcessStatus :=
  ProcessStatus.Exited (ExitedStatus.fromExitStatus exit_status)

/-- task.rs line 133: `Task::new` initialises the status of every task,
of either kind, to `Status::Process(ProcessStatus::Created)`. -/
def initialStatus : Status := Status.Process ProcessStatus.Created

/-- A process status is terminal when it is neither `Created` nor `Running`. -/
def ProcessStatus.isTerminal : ProcessStatus → Bool
  | .Created => false
  | .Running => false
  | _ => true

/-- A download status is terminal when it is neither `Created` nor `Running`. -/
def DownloadZipFileStatus.isTerminal : DownloadZipFileStatus → Bool
  | .Created => false
  | .Running => false
  | _ => true

/-- Terminality of a top-level status. -/
def Status.isTerminal : Status → Bool
  | .Process s => s.isTerminal
  | .Download s => s.isTerminal

/-- Is this one of the two `Running` statuses? -/
def Status.isRunning : Status → Bool
  | .Process .Running => true
  | .Download .Running => true
  | _ => false

/-- Is this status carried by the `Status::Download` variant? -/
def Status.isDownloadVariant : Status → Bool
  | .Download _ => true
  | .Process _ => false

/-! ## The child-process runner (task.rs `Task::run_os_process`, lines 203-337)

The runner is embedded as a function from the outcomes of its environment
(spawn result, which `tokio::select!` branch fires, kill/wait results) to
the sequence of statuses it writes. -/

/-- Which branch of the `tokio::select!` in `run_os_process` fires first,
together with the results of the `child.kill()` and `child.wait()` calls
performed inside that branch (`true` = `Ok`).  The natural-exit branch
carries the result of `child.wait()`. -/
inductive RaceBranch where
  | timeout (kill_ok : Bool) (wait_ok : Bool)
  | cancel (kill_ok : Bool) (wait_ok : Bool)
  | exited (result : Except Unit ExitStatus)
deriving Repr

/-- Environment of one execution of `run_os_process`: whether
`Command::spawn` succeeded, and the race outcome if it did. -/
structure OsProcessEnv where
  spawn_ok : Bool
  branch : RaceBranch
deriving Repr

/-- task.rs lines 271-332: the value bound to `status` by the
`tokio::select!`, one arm per branch, mirroring the nested matches on the
kill and wait results. -/
def raceStatus (branch : RaceBranch) : ProcessStatus :=
  match branch with
  | .timeout kill_ok wait_ok =>
    match kill_ok with
    | true =>
      match wait_ok with
      | true => ProcessStatus.Timeout
      | false => ProcessStatus.Failed FailOperation.AfterTimeoutOnWait
    | false => ProcessStatus.Failed FailOperation.AfterTimeoutOnKill
  | .cancel kill_ok wait_ok =>
    match kill_ok with
    | true =>
      match wait_ok with
      | true => ProcessStatus.Canceled
      | false => ProcessStatus.Failed FailOperation.AfterCancelOnWait
    | false => ProcessStatus.Failed FailOperation.AfterCancelOnKill
  | .exited (.ok exit_status) => ProcessStatus.fromExitStatus exit_status
  | .exited (.error _) => ProcessStatus.Failed FailOperation.OnWait

/-- The sequence of statuses readable through the task's status lock over
one run of `run_os_process`: the initial status written by `Task::new`,
then each `set_status_and_log` write.  On spawn failure (task.rs lines
234-246) the only write is `Failed { operation: OnSpawn }`; otherwise
`Running` is written (line 268) and then the race outcome (line 334). -/
def runOsProcessTrace (env : OsProcessEnv) : List Status :=
  match env.spawn_ok with
  | false => [initialStatus, Status.Process (ProcessStatus.Failed FailOperation.OnSpawn)]
  | true => [initialStatus, Status.Process ProcessStatus.Running,
             Status.Process (raceStatus env.branch)]

/-! ## The download runner (task.rs `Task::run_download_and_unzip_from_download_url`,
lines 339-374) -/

/-- Which branch of the download runner's `tokio::select!` fires first.
The pipeline branch carries the result of
`download_and_unzip_from_download_url`, whose error is rendered by
`err.to_string()`. -/
inductive DownloadRace where
  | timeout
  | cancel
  | pipeline (result : Except String Unit)
deriving Repr

/-- task.rs lines 349-369: the value bound to `status` by the select. -/
def downloadRaceStatus : DownloadRace → DownloadZipFileStatus
  | .timeout => DownloadZipFileStatus.Timeout
  | .cancel => DownloadZipFileStatus.Canceled
  | .pipeline (.ok _) => DownloadZipFileStatus.Exited
  | .pipeline (.error err) => DownloadZipFileStatus.Failed err

/-- The sequence of statuses readable over one run of
`run_download_and_unzip_from_download_url`: the initial status from
`Task::new`, the `Running` write (line 346), then the terminal write
(line 371). -/
def runDownloadTrace (race : DownloadRace) : List Status :=
  [initialStatus, Status.Download DownloadZipFileStatus.Running,
   Status.Download (downloadRaceStatus race)]

/-! ## Theorems for C1 and C3 -/

/-- C1 (counterexample): the claim says every status ever observable for a
Download job is a Download-variant status, but `Task::new` initialises the
status of a Download job to `Status::Process(ProcessStatus::Created)`
(task.rs line 133), so the first observable status of a Download job is a
Process-variant status. -/
theorem C1_download_initial_status_is_process_variant :
    (runDownloadTrace (DownloadRace.pipeline (Except.ok ()))).head? =
      some (Status.Process ProcessStatus.Created) ∧
    Status.isDownloadVariant (Status.Process ProcessStatus.Created) = false := by
  exact ⟨rfl, rfl⟩

/-- C1 (amended): for both runners the observed status sequence is a valid
walk: it starts at `Process(Created)` (also for Download jobs), `Running`
is entered exactly once unless spawn fails, in which case
`Failed{OnSpawn}` is the only transition, exactly one terminal status is
entered and it is the last status; every status after the initial one of a
Download job is a Download-variant status and every status of a Process
job is a Process-variant status. -/
theorem C1_amended_status_walk (env : OsProcessEnv) (race : DownloadRace)
    (b : RaceBranch) :
    (runOsProcessTrace env).head? = some initialStatus ∧
    (runDownloadTrace race).head? = some initialStatus ∧
    (runOsProcessTrace env).countP (fun s => Status.isRunning s) =
      (if env.spawn_ok then 1 else 0) ∧
    runOsProcessTrace { spawn_ok := false, branch := b } =
      [initialStatus, Status.Process (ProcessStatus.Failed FailOperation.OnSpawn)] ∧
    (runDownloadTrace race).countP (fun s => Status.isRunning s) = 1 ∧
    (runOsProcessTrace env).countP (fun s => Status.isTerminal s) = 1 ∧
    (runDownloadTrace race).countP (fun s => Status.isTerminal s) = 1 ∧
    (runOsProcessTrace env).getLast?.map Status.isTerminal = some true ∧
    (runDownloadTrace race).getLast?.map Status.isTerminal = some true ∧
    (runOsProcessTrace env).all (fun s => !Status.isDownloadVariant s) = true ∧
    (runDownloadTrace race).tail.all (fun s => Status.isDownloadVariant s) = true := by
  obtain ⟨spawn_ok, branch⟩ := env
  refine ⟨?_, ?_, ?_, ?_, ?_, ?_, ?_, ?_, ?_, ?_, ?_⟩ <;>
    cases spawn_ok <;>
    cases race <;>
    first
      | rfl
      | (rcases branch with ⟨k, w⟩ | ⟨k, w⟩ | ⟨r⟩ <;>
          first
            | (cases k <;> cases w <;> rfl)
            | (rcases r with r | es <;>
                first
                  | rfl
                  | (rcases es with ⟨succ, code⟩ <;> cases succ <;> rfl)))
      | (rename_i res
         rcases res with r | r <;> rfl)

/-- C3: for a Process job whose child was spawned, the terminal status
recorded by `run_os_process` is exactly the one the entered race branch
dictates: timeout branch: kill failure gives `Failed{AfterTimeoutOnKill}`,
wait failure after a successful kill gives `Failed{AfterTimeoutOnWait}`,
both succeeding gives `Timeout`; cancel branch: the same protocol gives
`Failed{AfterCancelOnKill}`, `Failed{AfterCancelOnWait}` or `Canceled`;
natural exit: a successful wait gives `Exited{Success}` when the exit
status is success and `Exited{Failure{code?}}` otherwise, and a wait
error gives `Failed{OnWait}`. -/
theorem C3_race_branch_determines_terminal (wait_ok : Bool)
    (es : ExitStatus) (branch : RaceBranch) :
    raceStatus (RaceBranch.timeout false wait_ok) =
      ProcessStatus.Failed FailOperation.AfterTimeoutOnKill ∧
    raceStatus (RaceBranch.timeout true false) =
      ProcessStatus.Failed FailOperation.AfterTimeoutOnWait ∧
    raceStatus (RaceBranch.timeout true true) = ProcessStatus.Timeout ∧
    raceStatus (RaceBranch.cancel false wait_ok) =
      ProcessStatus.Failed FailOperation.AfterCancelOnKill ∧
    raceStatus (RaceBranch.cancel true false) =
      ProcessStatus.Failed FailOperation.AfterCancelOnWait ∧
    raceStatus (RaceBranch.cancel true true) = ProcessStatus.Canceled ∧
    raceStatus (RaceBranch.exited (Except.ok es)) =
      (if es.success then ProcessStatus.Exited ExitedStatus.Success
       else ProcessStatus.Exited (ExitedStatus.Failure es.code)) ∧
    raceStatus (RaceBranch.exited (Except.error ())) =
      ProcessStatus.Failed FailOperation.OnWait ∧
    (runOsProcessTrace { spawn_ok := true, branch := branch }).getLast? =
      some (Status.Process (raceStatus branch)) := by
  refine ⟨rfl, rfl, rfl, rfl, rfl, rfl, ?_, rfl, rfl⟩
  rcases es with ⟨succ, code⟩
  cases succ <;> rfl

/-! ## The job registry (src/server/state.rs)

`ApiStateInner.tasks` is a `HashMap<String, TaskData>`; it is embedded as
an association list with unique keys.  A `Handle` reads the current status
through the task's status lock; the record therefore carries the current
status directly. -/

/-- state.rs lines 36-39: the per-task record held by the registry.  The
`handle` field is represented by the status its `status()` method would
read. -/
structure TaskData where
  chat_id : String
  status : Status
deriving DecidableEq, Repr

/-- The registry map from task id to record. -/
abbrev Tasks := List (String × TaskData)

/-- `HashMap::get` on the registry map. -/
def tasksGet (tasks : Tasks) (id : String) : Option TaskData :=
  match tasks with
  | [] => none
  | (k, v) :: rest => if k = id then some v else tasksGet rest id

/-- state.rs lines 237-247: `ApiStateInner::cancel_task`.  Looks the id up;
only when the record exists and its `chat_id` equals the supplied one does
it send the cancel signal and return `Some(id)`; every other case is
`None`. -/
def cancel_task (tasks : Tasks) (id chat_id : String) : Option String :=
  match tasksGet tasks id with
  | some task_data =>
    if task_data.chat_id = chat_id then some id else none
  | none => none

/-- state.rs lines 249-259: `ApiStateInner::task_status`.  Same ownership
check; returns the status read through the handle. -/
def task_status (tasks : Tasks) (id chat_id : String) : Option Status :=
  match tasksGet tasks id with
  | some task_data =>
    if task_data.chat_id = chat_id then some task_data.status else none
  | none => none

/-- C2: `cancel_task` and `task_status` return `None` exactly when the
registry holds no record with that id or the record's `chat_id` differs
from the supplied one; and on an absent id both operations return `None`,
so a mismatched `chat_id` produces a result identical to a missing id. -/
theorem C2_ownership_lookup (tasks : Tasks) (id chat_id : String) :
    (cancel_task tasks id chat_id = none ↔
      (tasksGet tasks id = none ∨
        ∃ td, tasksGet tasks id = some td ∧ td.chat_id ≠ chat_id)) ∧
    (task_status tasks id chat_id = none ↔
      (tasksGet tasks id = none ∨
        ∃ td, tasksGet tasks id = some td ∧ td.chat_id ≠ chat_id)) ∧
    cancel_task [] id chat_id = none ∧
    task_status [] id chat_id = none := by
  refine ⟨?_, ?_, rfl, rfl⟩ <;>
    first
      | (unfold cancel_task
         rcases h : tasksGet tasks id with _ | td
         · simp
         · constructor
           · intro hnone
             by_cases hc : td.chat_id = chat_id
             · simp [hc] at hnone
             · exact Or.inr ⟨td, rfl, hc⟩
           · rintro (habs | ⟨td2, htd2, hc⟩)
             · exact absurd habs (by simp)
             · obtain rfl : td2 = td := by injection htd2 with h2; exact h2.symm
               simp [hc])
      | (unfold task_status
         rcases h : tasksGet tasks id with _ | td
         · simp
         · constructor
           · intro hnone
             by_cases hc : td.chat_id = chat_id
             · simp [hc] at hnone
             · exact Or.inr ⟨td, rfl, hc⟩
           · rintro (habs | ⟨td2, htd2, hc⟩)
             · exact absurd habs (by simp)
             · obtain rfl : td2 = td := by injection htd2 with h2; exact h2.symm
               simp [hc])

/-- C2 witness: a registry holding id "0" for chat "c1"; looked up with the
foreign chat "c2", both operations return `None`, identically to the empty
registry. -/
theorem C2_ownership_lookup_witness :
    cancel_task [("0", { chat_id := "c1", status := initialStatus })] "0" "c2" = none ∧
    task_status [("0", { chat_id := "c1", status := initialStatus })] "0" "c2" = none := by
  have h := C2_ownership_lookup
    [("0", { chat_id := "c1", status := initialStatus })] "0" "c2"
  exact ⟨h.1.mpr (Or.inr ⟨_, rfl, by decide⟩), h.2.1.mpr (Or.inr ⟨_, rfl, by decide⟩)⟩

/-! ## Retention (state.rs `run_download_task`, lines 78-120)

The supervisor spawned for every job runs the runner to completion (the
runner's last act is recording the terminal status), sleeps 900 seconds
and then removes the record.  The life of one job is embedded as a
time-stamped list of registry actions, and the registry contents at time
`t` as the fold of the actions stamped no later than `t`. -/

/-- An action on the registry map. -/
inductive RegAction where
  | insert (id : String) (td : TaskData)
  | setStatus (id : String) (s : Status)
  | remove (id : String)
deriving DecidableEq, Repr

/-- Apply one action to the registry map. -/
def applyAction (tasks : Tasks) : RegAction → Tasks
  | .insert id td => (id, td) :: tasks
  | .setStatus id s =>
    tasks.map (fun kv => if kv.1 = id then (kv.1, { kv.2 with status := s }) else kv)
  | .remove id => tasks.filter (fun kv => kv.1 ≠ id)

/-- state.rs lines 91-117: the time-stamped registry actions produced for
one download job: insertion with the `Task::new` status at submission time
`t0`, the runner's `Running` write at `t1`, its terminal write at `t2`,
and the supervisor's removal after the 900-second sleep, at `t2 + 900`. -/
def downloadJobEvents (id chat_id : String) (t0 t1 t2 : Nat)
    (terminal : DownloadZipFileStatus) : List (Nat × RegAction) :=
  [(t0, RegAction.insert id { chat_id := chat_id, status := initialStatus }),
   (t1, RegAction.setStatus id (Status.Download DownloadZipFileStatus.Running)),
   (t2, RegAction.setStatus id (Status.Download terminal)),
   (t2 + 900, RegAction.remove id)]

/-- The registry contents at time `t`: all actions stamped `≤ t`, applied
in order to the empty map. -/
def registryAt (events : List (Nat × RegAction)) (t : Nat) : Tasks :=
  (events.filter (fun e => e.1 ≤ t)).foldl (fun tasks e => applyAction tasks e.2) []

/-- Setting a status on a one-record registry holding that id. -/
theorem applyAction_setStatus_single (id : String) (td : TaskData) (s : Status) :
    applyAction [(id, td)] (RegAction.setStatus id s) = [(id, { td with status := s })] := by
  simp [applyAction]

/-- Removing a one-record registry holding that id empties it. -/
theorem applyAction_remove_single (id : String) (td : TaskData) :
    applyAction [(id, td)] (RegAction.remove id) = [] := by
  simp [applyAction]

/-- Reading a one-record registry with the owning chat id. -/
theorem task_status_single (id chat_id : String) (s : Status) :
    task_status [(id, { chat_id := chat_id, status := s })] id chat_id = some s := by
  simp [task_status, tasksGet]

/-- C8: a download job's record is removed only after its terminal status
is recorded and the fixed 900-second retention delay has elapsed: for any
time from the terminal write until 900 seconds later, `task_status` with
the owning chat id returns the recorded terminal status, and from
`t2 + 900` on both `task_status` and `cancel_task` return `None`. -/
theorem C8_retention (id chat_id : String) (t0 t1 t2 t : Nat)
    (terminal : DownloadZipFileStatus)
    (h01 : t0 ≤ t1) (h12 : t1 ≤ t2) :
    (t2 ≤ t → t < t2 + 900 →
      task_status (registryAt (downloadJobEvents id chat_id t0 t1 t2 terminal) t)
          id chat_id = some (Status.Download terminal)) ∧
    (t2 + 900 ≤ t →
      task_status (registryAt (downloadJobEvents id chat_id t0 t1 t2 terminal) t)
          id chat_id = none ∧
      cancel_task (registryAt (downloadJobEvents id chat_id t0 t1 t2 terminal) t)
          id chat_id = none) := by
  constructor
  · intro h2t htlt
    have e0 : t0 ≤ t := le_trans h01 (le_trans h12 h2t)
    have e1 : t1 ≤ t := le_trans h12 h2t
    have e3 : ¬ (t2 + 900 ≤ t) := by omega
    have hf : (downloadJobEvents id chat_id t0 t1 t2 terminal).filter
        (fun e => e.1 ≤ t) =
        [(t0, RegAction.insert id { chat_id := chat_id, status := initialStatus }),
         (t1, RegAction.setStatus id (Status.Download DownloadZipFileStatus.Running)),
         (t2, RegAction.setStatus id (Status.Download terminal))] := by
      simp [downloadJobEvents, List.filter, e0, e1, h2t, e3]
    unfold registryAt
    rw [hf]
    simp only [List.foldl_cons, List.foldl_nil]
    rw [show applyAction [] (RegAction.insert id
          { chat_id := chat_id, status := initialStatus }) =
        [(id, { chat_id := chat_id, status := initialStatus })] from rfl,
      applyAction_setStatus_single, applyAction_setStatus_single,
      task_status_single]
  · intro hge
    have e0 : t0 ≤ t := by omega
    have e1 : t1 ≤ t := by omega
    have e2 : t2 ≤ t := by omega
    have hf : (downloadJobEvents id chat_id t0 t1 t2 terminal).filter
        (fun e => e.1 ≤ t) =
        [(t0, RegAction.insert id { chat_id := chat_id, status := initialStatus }),
         (t1, RegAction.setStatus id (Status.Download DownloadZipFileStatus.Running)),
         (t2, RegAction.setStatus id (Status.Download terminal)),
         (t2 + 900, RegAction.remove id)] := by
      simp [downloadJobEvents, List.filter, e0, e1, e2, hge]
    unfold registryAt
    rw [hf]
    simp only [List.foldl_cons, List.foldl_nil]
    rw [show applyAction [] (RegAction.insert id
          { chat_id := chat_id, status := initialStatus }) =
        [(id, { chat_id := chat_id, status := initialStatus })] from rfl,
      applyAction_setStatus_single, applyAction_setStatus_single,
      applyAction_remove_single]
    exact ⟨rfl, rfl⟩

/-- C8 witness: with submission at time 0, `Running` at 1, terminal
`Exited` at 2: at time 500 the owning lookup still returns the terminal
status; at time 902 both lookups return `None`. -/
theorem C8_retention_witness :
    task_status (registryAt (downloadJobEvents "7" "c" 0 1 2 DownloadZipFileStatus.Exited) 500)
        "7" "c" = some (Status.Download DownloadZipFileStatus.Exited) ∧
    task_status (registryAt (downloadJobEvents "7" "c" 0 1 2 DownloadZipFileStatus.Exited) 902)
        "7" "c" = none ∧
    cancel_task (registryAt (downloadJobEvents "7" "c" 0 1 2 DownloadZipFileStatus.Exited) 902)
        "7" "c" = none := by
  have h500 := C8_retention "7" "c" 0 1 2 500 DownloadZipFileStatus.Exited
    (by decide) (by decide)
  have h902 := C8_retention "7" "c" 0 1 2 902 DownloadZipFileStatus.Exited
    (by decide) (by decide)
  exact ⟨h500.1 (by decide) (by decide), (h902.2 (by decide)).1, (h902.2 (by decide)).2⟩

/-! ## The cancel channel (task.rs lines 89-129)

`Task::new` creates `mpsc::channel(1)`; `Handle::send_cancel_signal` calls
`self.tx.send(()).await`.  The semantics of `tokio::sync::mpsc::Sender::send`
on a bounded channel: it completes immediately while the buffer has spare
capacity, returns an error once the receiver is gone, and otherwise
suspends, waiting for capacity to become available. -/

/-- State of the bounded cancel channel: its capacity, the number of
undelivered signals in the buffer, and whether the receiving end is still
alive. -/
structure CancelChannel where
  capacity : Nat
  queued : Nat
  receiver_alive : Bool
deriving DecidableEq, Repr

/-- The immediate outcome of `Sender::send(()).await`. -/
inductive SendOutcome where
  | sent (chan : CancelChannel)
  | suspended
  | closed
deriving DecidableEq, Repr

/-- `tokio::sync::mpsc::Sender::send` on the bounded channel: `Err` when
the receiver is dropped; an immediate enqueue while `queued < capacity`;
otherwise the future suspends until the receiver frees a permit. -/
def mpscSend (chan : CancelChannel) : SendOutcome :=
  if chan.receiver_alive = false then SendOutcome.closed
  else if chan.queued < chan.capacity then
    SendOutcome.sent { chan with queued := chan.queued + 1 }
  else SendOutcome.suspended

/-- The send semantics asserted by the claim: the send always returns
immediately, and when the buffer is already full the signal is dropped
(coalesced into the buffered one). -/
def claimedCoalescingSend (chan : CancelChannel) : SendOutcome :=
  if chan.receiver_alive = false then SendOutcome.closed
  else if chan.queued < chan.capacity then
    SendOutcome.sent { chan with queued := chan.queued + 1 }
  else SendOutcome.sent chan

/-- Did the send complete without suspending? -/
def SendOutcome.completesImmediately : SendOutcome → Bool
  | .sent _ => true
  | .suspended => false
  | .closed => true

/-- task.rs line 129: the channel created by `Task::new`. -/
def cancelChannelNew : CancelChannel :=
  { capacity := 1, queued := 0, receiver_alive := true }

/-- How many cancel signals one run of `run_os_process` consumes:
`wait_for_cancel_signal` performs a single `rx.recv()`, and it is awaited
only in the cancel arm of the select (task.rs line 297). -/
def cancelSignalsConsumed : RaceBranch → Nat
  | .cancel _ _ => 1
  | _ => 0

/-- C5 (counterexample): with the capacity-1 cancel channel already
holding an undelivered signal and the runner still alive, the send
performed by `send_cancel_signal` suspends instead of returning
immediately with the signal dropped, contrary to the claim. -/
theorem C5_full_buffer_send_suspends :
    mpscSend { capacity := 1, queued := 1, receiver_alive := true } =
      SendOutcome.suspended ∧
    SendOutcome.completesImmediately
      (mpscSend { capacity := 1, queued := 1, receiver_alive := true }) = false ∧
    claimedCoalescingSend { capacity := 1, queued := 1, receiver_alive := true } =
      SendOutcome.sent { capacity := 1, queued := 1, receiver_alive := true } := by
  decide

/-- C5 (amended): a first cancel signal on the fresh capacity-1 channel is
enqueued immediately; but while the buffer already holds an undelivered
signal a further send suspends until the runner consumes the buffered
signal or drops the receiver; the runner still observes the cancel signal
at most once, since `run_os_process` performs at most one `recv`. -/
theorem C5_amended_cancel_channel (chan : CancelChannel) (branch : RaceBranch) :
    mpscSend cancelChannelNew =
      SendOutcome.sent { capacity := 1, queued := 1, receiver_alive := true } ∧
    (chan.receiver_alive = true → chan.capacity ≤ chan.queued →
      mpscSend chan = SendOutcome.suspended) ∧
    cancelSignalsConsumed branch ≤ 1 := by
  refine ⟨by decide, ?_, ?_⟩
  · intro halive hfull
    unfold mpscSend
    rw [halive]
    simp [Nat.not_lt.mpr hfull]
  · cases branch <;> simp [cancelSignalsConsumed]

/-- C5 amended witness: the full channel from the counterexample state
satisfies the hypotheses, and the suspended outcome follows. -/
theorem C5_amended_cancel_channel_witness :
    mpscSend { capacity := 1, queued := 1, receiver_alive := true } =
      SendOutcome.suspended := by
  exact (C5_amended_cancel_channel
    { capacity := 1, queued := 1, receiver_alive := true }
    (RaceBranch.timeout true true)).2.1 rfl (by decide)

/-! ## The id allocator (state.rs lines 66-72)

`increment_current_task_id` performs `current_id.load(Relaxed)` followed
by `current_id.store(id + 1, Relaxed)` and returns the loaded value: a
load and a store, not an atomic read-modify-write.  Two concurrent callers
are embedded as two two-step threads over the shared counter, run under an
arbitrary interleaving. -/

/-- One caller of `increment_current_task_id`: program counter 0 (about to
load), 1 (about to store), 2 (done), and the value it loaded, which is the
id it returns. -/
structure AllocThread where
  pc : Nat
  returned : Option Nat
deriving DecidableEq, Repr

/-- Shared state: the `AtomicU32` counter and two callers. -/
structure AllocState where
  current_id : Nat
  t1 : AllocThread
  t2 : AllocThread
deriving DecidableEq, Repr

/-- One step of one caller: the Relaxed load (`let id = load()`), then the
Relaxed store (`store(id + 1)`, wrapping as a 32-bit unsigned value). -/
def stepThread (counter : Nat) (t : AllocThread) : Nat × AllocThread :=
  match t.pc, t.returned with
  | 0, _ => (counter, { pc := 1, returned := some counter })
  | 1, some id => ((id + 1) % 2 ^ 32, { pc := 2, returned := some id })
  | _, _ => (counter, t)

/-- One scheduler step: `true` steps the first caller, `false` the second. -/
def stepAlloc (s : AllocState) (choose_t1 : Bool) : AllocState :=
  if choose_t1 then
    let (c, t) := stepThread s.current_id s.t1
    { current_id := c, t1 := t, t2 := s.t2 }
  else
    let (c, t) := stepThread s.current_id s.t2
    { current_id := c, t1 := s.t1, t2 := t }

/-- Run a schedule of interleaved steps. -/
def runSchedule (s : AllocState) : List Bool → AllocState
  | [] => s
  | b :: rest => runSchedule (stepAlloc s b) rest

/-- Both callers fresh, the counter at 0 as in `ApiStateInner::new`. -/
def initAlloc : AllocState :=
  { current_id := 0,
    t1 := { pc := 0, returned := none },
    t2 := { pc := 0, returned := none } }

/-- C6: because `increment_current_task_id` is a Relaxed load followed by
a separate Relaxed store rather than an atomic `fetch_add`, the
interleaving load-load-store-store hands the same id to both concurrent
callers, violating the claim that two concurrent callers never return the
same value; sequential callers do receive strictly increasing ids. -/
theorem C6_relaxed_load_store_race :
    (runSchedule initAlloc [true, false, true, false]).t1.returned = some 0 ∧
    (runSchedule initAlloc [true, false, true, false]).t2.returned = some 0 ∧
    (runSchedule initAlloc [true, false, true, false]).current_id = 1 ∧
    (runSchedule initAlloc [true, true, false, false]).t1.returned = some 0 ∧
    (runSchedule initAlloc [true, true, false, false]).t2.returned = some 1 := by
  decide

/-! ## Paths

Filesystem paths are embedded as lists of components.  `pathComponents`
mirrors the normalisation performed by `std::path::Path::components`
(empty and `.` components are dropped), and `file_name` mirrors
`Path::file_name`, which returns the final normal component and `None`
when the path ends in `..` or has no component. -/

/-- A filesystem path as its list of components. -/
abbrev FsPath := List String

/-- Split a character list at every occurrence of `sep`. -/
def splitOnChar (sep : Char) : List Char → List (List Char)
  | [] => [[]]
  | c :: cs =>
    let rest := splitOnChar sep cs
    if c = sep then [] :: rest
    else
      match rest with
      | [] => [[c]]
      | r :: rs => (c :: r) :: rs

/-- The components of a path string: split on `/`, dropping empty and `.`
components as Rust path normalisation does. -/
def pathComponents (s : String) : FsPath :=
  ((splitOnChar '/' s.toList).map (fun cs => String.mk cs)).filter
    (fun c => c ≠ "" && c ≠ ".")

/-- task.rs lines 403-411: `PathBuf::from(file.name()).file_name()`, the
final component of the entry name; `None` when the name ends in `..` or
has no component. -/
def file_name (s : String) : Option String :=
  match (pathComponents s).getLast? with
  | some c => if c = ".." then none else some c
  | none => none

/-- Resolution of `..` components as the operating system performs it when
the path is opened: a `..` pops the preceding component. -/
def resolvePath (p : FsPath) : FsPath :=
  p.foldl (fun acc c => if c = ".." then acc.dropLast else acc ++ [c]) []

/-! ## The unzip step (task.rs `Task::unzip`, lines 397-423)

An archive is embedded as the list of its entries, each an entry name and
its contents; the files written are accumulated as path-contents pairs.
`File::create` and `io::copy` are modelled as always succeeding; the
invalid-file-name error (entry name with no basename) is kept. -/

/-- task.rs lines 397-423: for each entry, strip all directories from the
entry name (erroring when no basename exists), join the basename onto the
project directory and write the contents there. -/
def unzip (entries : List (String × String)) (project_dir : FsPath)
    (fs : List (FsPath × String)) : Except String (List (FsPath × String)) :=
  match entries with
  | [] => Except.ok fs
  | (name, contents) :: rest =>
    match file_name name with
    | none => Except.error "Invalid file name"
    | some base => unzip rest project_dir ((project_dir ++ [base], contents) :: fs)

/-- Every basename computed by `file_name` is a single real component:
never empty, `.` or `..`. -/
theorem file_name_is_real_component (name base : String)
    (h : file_name name = some base) :
    base ≠ "" ∧ base ≠ "." ∧ base ≠ ".." := by
  unfold file_name at h
  rcases hget : (pathComponents name).getLast? with _ | c
  · rw [hget] at h
    exact absurd h (by simp)
  · rw [hget] at h
    replace h : (if c = ".." then none else some c) = some base := h
    by_cases hdd : c = ".."
    · rw [if_pos hdd] at h
      exact absurd h (by simp)
    · rw [if_neg hdd] at h
      obtain rfl : c = base := by injection h
      obtain ⟨hne, heq⟩ := List.mem_getLast?_eq_getLast hget
      have hmem : c ∈ pathComponents name := by
        rw [heq]
        exact List.getLast_mem hne
      have hfilter := List.of_mem_filter hmem
      refine ⟨?_, ?_, hdd⟩
      · intro hc
        rw [hc] at hfilter
        simp at hfilter
      · intro hc
        rw [hc] at hfilter
        simp at hfilter

/-- C4: every file written by `unzip` is written at the project directory
joined with the basename of some entry's name, the directory components of
the name all discarded; the basename is a real component (never `..`, `.`
or empty), so resolving the written path keeps it inside the project
directory; and the entry named `../../etc/passwd` is written to
`<project_dir>/passwd`. -/
theorem C4_unzip_flattens_to_basename (entries : List (String × String))
    (project_dir : FsPath) (fs fs' : List (FsPath × String))
    (h : unzip entries project_dir fs = Except.ok fs') :
    (∀ pc, pc ∈ fs' → pc ∈ fs ∨
      ∃ name base, file_name name = some base ∧ (name, pc.2) ∈ entries ∧
        pc.1 = project_dir ++ [base] ∧
        resolvePath pc.1 = resolvePath project_dir ++ [base]) ∧
    file_name "../../etc/passwd" = some "passwd" ∧
    unzip [("../../etc/passwd", "x")] ["projects", "proj"] [] =
      Except.ok [(["projects", "proj", "passwd"], "x")] := by
  refine ⟨?_, rfl, rfl⟩
  induction entries generalizing fs with
  | nil =>
    obtain rfl : fs = fs' := by
      unfold unzip at h
      injection h
    intro pc hpc
    exact Or.inl hpc
  | cons entry rest ih =>
    obtain ⟨name, contents⟩ := entry
    unfold unzip at h
    rcases hbase : file_name name with _ | base
    · rw [hbase] at h
      exact absurd h (by simp)
    · rw [hbase] at h
      intro pc hpc
      rcases ih _ h pc hpc with hin | ⟨nm, b, hb, hmem, hpath, hres⟩
      · rcases List.mem_cons.mp hin with hhead | htail
        · refine Or.inr ⟨name, base, hbase, ?_, ?_, ?_⟩
          · rw [hhead]
            exact List.mem_cons_self _ _
          · rw [hhead]
          · rw [hhead]
            obtain ⟨hne, hnd, hndd⟩ := file_name_is_real_component name base hbase
            unfold resolvePath
            rw [List.foldl_append]
            simp [hndd]
        · exact Or.inl htail
      · exact Or.inr ⟨nm, b, hb, List.mem_cons_of_mem _ hmem, hpath, hres⟩

/-- C4 witness: extracting the single-entry archive holding
`../../etc/passwd` succeeds and the only file written is
`projects/proj/passwd`, inside the project directory. -/
theorem C4_unzip_flattens_to_basename_witness :
    (["projects", "proj", "passwd"], "x") ∈
        ([] : List (FsPath × String)) ∨
      ∃ name base, file_name name = some base ∧
        (name, "x") ∈ [("../../etc/passwd", "x")] ∧
        (["projects", "proj", "passwd"] : FsPath) = ["projects", "proj"] ++ [base] ∧
        resolvePath ["projects", "proj", "passwd"] =
          resolvePath ["projects", "proj"] ++ [base] := by
  exact (C4_unzip_flattens_to_basename [("../../etc/passwd", "x")]
    ["projects", "proj"] [] [(["projects", "proj", "passwd"], "x")]
    rfl).1 (["projects", "proj", "passwd"], "x") (by decide)

/-! ## Serving project files (state.rs `ApiStateInner::get_file`, lines 282-302)

The filesystem is embedded as a set of existing directories and a map from
file paths to contents, both keyed by resolved paths, since the operating
system resolves `..` components when a path is checked or opened. -/

/-- The filesystem visible to `get_file`. -/
structure FileSystem where
  dirs : List FsPath
  files : List (FsPath × String)
deriving DecidableEq, Repr

/-- `Path::exists`: the resolved path names a directory or a file. -/
def FileSystem.pathExists (fs : FileSystem) (p : FsPath) : Bool :=
  fs.dirs.contains (resolvePath p) ||
    (fs.files.map Prod.fst).contains (resolvePath p)

/-- `tokio::fs::read_to_string` on the resolved path. -/
def FileSystem.readToString (fs : FileSystem) (p : FsPath) : Option String :=
  (fs.files.find? (fun f => f.1 == resolvePath p)).map Prod.snd

/-- state.rs lines 320-325: the error type of `get_file`. -/
inductive GetFileError where
  | NotFound
  | IoError (msg : String)
deriving DecidableEq, Repr

/-- state.rs lines 282-302: `ApiStateInner::get_file`.  Joins
`projects_dir` with `project_name`, checks the directory exists, joins the
caller-supplied `file_name` onto it with no sanitisation, checks the path
exists and reads it. -/
def get_file (fs : FileSystem) (projects_dir project_name file_name : String) :
    Except GetFileError String :=
  let project_dir : FsPath := pathComponents projects_dir ++ pathComponents project_name
  if fs.pathExists project_dir = false then Except.error GetFileError.NotFound
  else
    let file_path := project_dir ++ pathComponents file_name
    if fs.pathExists file_path = false then Except.error GetFileError.NotFound
    else
      match fs.readToString file_path with
      | some file_content => Except.ok file_content
      | none => Except.error (GetFileError.IoError "read failed")

/-- C10: `get_file` joins the caller-supplied file name onto the project
directory with no sanitisation, so the file name `../other/secret.txt`
resolves outside the project directory `projects/proj` and the foreign
file's contents are returned instead of `NotFound`. -/
theorem C10_get_file_path_traversal :
    get_file
        { dirs := [["projects"], ["projects", "proj"], ["projects", "other"]],
          files := [(["projects", "other", "secret.txt"], "TOP-SECRET")] }
        "projects" "proj" "../other/secret.txt" = Except.ok "TOP-SECRET" ∧
    resolvePath (pathComponents "projects" ++ pathComponents "proj" ++
        pathComponents "../other/secret.txt") = ["projects", "other", "secret.txt"] ∧
    (["projects", "proj"] : FsPath).isPrefixOf
        (resolvePath (pathComponents "projects" ++ pathComponents "proj" ++
          pathComponents "../other/secret.txt")) = false := by
  exact ⟨rfl, rfl, rfl⟩

/-! ## The URL helper (src/server/utils.rs)

A parsed `url::Url` is embedded by the three observations the helper
makes of it: `scheme()`, `host_str()` and `path_segments()`.  The output
URL is built by parsing the hard-coded base and appending the pair
`("id", <file id>)` through `query_pairs_mut().append_pair`, which
form-urlencodes the value. -/

/-- utils.rs lines 4-16: the closed error set of the helper. -/
inductive GoogleConvertLinkError where
  | InvalidScheme
  | InvalidHost
  | NoHost
  | NoIdInPath
  | NoSegments
deriving DecidableEq, Repr

/-- The observations `convert_google_share_or_view_url_to_download_url`
makes of its parsed `url::Url` argument. -/
structure Url where
  scheme : String
  host_str : Option String
  path_segments : Option (List String)
deriving DecidableEq, Repr

/-- Uppercase hexadecimal digit. -/
def hexDigit (n : Nat) : Char :=
  if n < 10 then Char.ofNat (48 + n) else Char.ofNat (55 + n)

/-- A percent-encoded byte, `%XX`. -/
def percentByte (b : Nat) : List Char :=
  ['%', hexDigit (b / 16), hexDigit (b % 16)]

/-- The UTF-8 bytes of a character. -/
def utf8Bytes (c : Char) : List Nat :=
  let n := c.toNat
  if n < 128 then [n]
  else if n < 2048 then [192 + n / 64, 128 + n % 64]
  else if n < 65536 then [224 + n / 4096, 128 + n / 64 % 64, 128 + n % 64]
  else [240 + n / 262144, 128 + n / 4096 % 64, 128 + n / 64 % 64, 128 + n % 64]

/-- One character under `form_urlencoded` serialisation, as used by
`Url::query_pairs_mut().append_pair`: ASCII alphanumerics and `*-._` pass
through, space becomes `+`, everything else is percent-encoded bytewise. -/
def formUrlencodedChar (c : Char) : List Char :=
  if c = ' ' then ['+']
  else if c.isAlphanum || c = '*' || c = '-' || c = '.' || c = '_' then [c]
  else (utf8Bytes c).flatMap percentByte

/-- `form_urlencoded` serialisation of a string. -/
def formUrlencode (s : String) : String :=
  String.mk (s.toList.flatMap formUrlencodedChar)

/-- utils.rs lines 18-43:
`convert_google_share_or_view_url_to_download_url`.  Rejects a non-https
scheme, a missing host, a host other than `drive.google.com`, an opaque
path and a path with fewer than three segments, in that order; otherwise
appends the third path segment as the `id` query pair of the hard-coded
download URL. -/
def convert_google_share_or_view_url_to_download_url (share_url : Url) :
    Except GoogleConvertLinkError String :=
  if share_url.scheme ≠ "https" then Except.error GoogleConvertLinkError.InvalidScheme
  else
    match share_url.host_str with
    | none => Except.error GoogleConvertLinkError.NoHost
    | some host =>
      if host ≠ "drive.google.com" then Except.error GoogleConvertLinkError.InvalidHost
      else
        match share_url.path_segments with
        | none => Except.error GoogleConvertLinkError.NoSegments
        | some segments =>
          match segments.get? 2 with
          | none => Except.error GoogleConvertLinkError.NoIdInPath
          | some id =>
            Except.ok ("https://drive.google.com/uc?export=download&id=" ++
              formUrlencode id)

/-- C7: the helper maps the example share URL to the example download URL;
a non-https scheme yields `InvalidScheme`, a missing host `NoHost`, a host
other than `drive.google.com` `InvalidHost`, an opaque path `NoSegments`,
a path with fewer than three segments `NoIdInPath`, and otherwise the
result is the download URL carrying the third path segment as the id; the
error type is the closed five-variant set. -/
theorem C7_convert_url (sch host id : String) (hs : Option String)
    (ps : Option (List String)) (segments : List String) :
    convert_google_share_or_view_url_to_download_url
        { scheme := "https", host_str := some "drive.google.com",
          path_segments := some ["file", "d", "ABC123", "view"] } =
      Except.ok "https://drive.google.com/uc?export=download&id=ABC123" ∧
    (sch ≠ "https" →
      convert_google_share_or_view_url_to_download_url
          { scheme := sch, host_str := hs, path_segments := ps } =
        Except.error GoogleConvertLinkError.InvalidScheme) ∧
    convert_google_share_or_view_url_to_download_url
        { scheme := "https", host_str := none, path_segments := ps } =
      Except.error GoogleConvertLinkError.NoHost ∧
    (host ≠ "drive.google.com" →
      convert_google_share_or_view_url_to_download_url
          { scheme := "https", host_str := some host, path_segments := ps } =
        Except.error GoogleConvertLinkError.InvalidHost) ∧
    convert_google_share_or_view_url_to_download_url
        { scheme := "https", host_str := some "drive.google.com",
          path_segments := none } =
      Except.error GoogleConvertLinkError.NoSegments ∧
    (segments.length < 3 →
      convert_google_share_or_view_url_to_download_url
          { scheme := "https", host_str := some "drive.google.com",
            path_segments := some segments } =
        Except.error GoogleConvertLinkError.NoIdInPath) ∧
    (segments.get? 2 = some id →
      convert_google_share_or_view_url_to_download_url
          { scheme := "https", host_str := some "drive.google.com",
            path_segments := some segments } =
        Except.ok ("https://drive.google.com/uc?export=download&id=" ++
          formUrlencode id)) := by
  refine ⟨rfl, ?_, rfl, ?_, rfl, ?_, ?_⟩
  · intro hsch
    unfold convert_google_share_or_view_url_to_download_url
    simp [hsch]
  · intro hhost
    unfold convert_google_share_or_view_url_to_download_url
    simp [hhost]
  · intro hlen
    have hnone : segments[2]? = none := List.getElem?_eq_none (by omega)
    unfold convert_google_share_or_view_url_to_download_url
    simp [hnone]
  · intro hid
    have hid2 : segments[2]? = some id := by
      rw [← List.get?_eq_getElem?]
      exact hid
    unfold convert_google_share_or_view_url_to_download_url
    simp [hid2]

/-- C7 witness: the scheme, host and segment-count error paths at concrete
URLs, and the success path on a two-segment prefix of the example path. -/
theorem C7_convert_url_witness :
    convert_google_share_or_view_url_to_download_url
        { scheme := "http", host_str := some "drive.google.com",
          path_segments := some ["file", "d", "ABC", "view"] } =
      Except.error GoogleConvertLinkError.InvalidScheme ∧
    convert_google_share_or_view_url_to_download_url
        { scheme := "https", host_str := some "example.com",
          path_segments := some ["x", "y", "z"] } =
      Except.error GoogleConvertLinkError.InvalidHost ∧
    convert_google_share_or_view_url_to_download_url
        { scheme := "https", host_str := some "drive.google.com",
          path_segments := some ["file", "d"] } =
      Except.error GoogleConvertLinkError.NoIdInPath ∧
    convert_google_share_or_view_url_to_download_url
        { scheme := "https", host_str := some "drive.google.com",
          path_segments := some ["x", "y", "z"] } =
      Except.ok ("https://drive.google.com/uc?export=download&id=" ++
        formUrlencode "z") := by
  have h1 := C7_convert_url "http" "example.com" "z"
    (some "drive.google.com") (some ["file", "d", "ABC", "view"])
    ["x", "y", "z"]
  have h2 := C7_convert_url "https" "example.com" "z" (some "example.com")
    (some ["x", "y", "z"]) ["file", "d"]
  exact ⟨h1.2.1 (by decide), h2.2.2.2.1 (by decide),
    h2.2.2.2.2.2.1 (by decide), h1.2.2.2.2.2.2 (by decide)⟩

/-! ## The api_key middleware (src/main.rs `validate_bearer_token` and
src/server/response.rs)

The `ApiError` kinds and their HTTP status codes are embedded from
response.rs lines 16-36 and 49-58.  The token comparison is
`ApiState::api_token_valid` from state.rs lines 30-32. -/

/-- response.rs lines 49-58: the API error kinds. -/
inductive ApiError where
  | ChatIdMissing
  | ApiKeyMissing
  | ApiKeyInvalid
  | QueryInvalid
  | NotFound
  | InternalServerError
deriving DecidableEq, Repr

/-- response.rs lines 16-36: the HTTP status code of each error kind. -/
def apiErrorStatusCode : ApiError → Nat
  | .ChatIdMissing => 400
  | .ApiKeyMissing => 400
  | .ApiKeyInvalid => 401
  | .QueryInvalid => 400
  | .NotFound => 404
  | .InternalServerError => 500

/-- state.rs lines 30-32: `ApiState::api_token_valid`. -/
def api_token_valid (api_token candidate : String) : Bool :=
  candidate = api_token

/-- Outcome of the middleware on one request. -/
inductive MiddlewareResult where
  | forwarded
  | rejected (err : ApiError)
deriving DecidableEq, Repr

/-- Modelled from the spec: the `/api/*` key-check middleware whose
variant matching response.rs is not under src/ (the `validate_bearer_token`
in src/main.rs is an older revision that references an `ApiError`
variant absent from src/server/response.rs).  Spec: all routes under
`/api/*` require a header named `api_key` whose value equals `api_token`;
missing yields `ApiKeyMissing` (400), mismatched yields `ApiKeyInvalid`
(401), and only a matching key forwards the request to the handler.  The
token comparison is the embedded `api_token_valid`. -/
def validate_api_key (api_key_header : Option String) (api_token : String) :
    MiddlewareResult :=
  match api_key_header with
  | none => MiddlewareResult.rejected ApiError.ApiKeyMissing
  | some api_key =>
    if api_token_valid api_token api_key then MiddlewareResult.forwarded
    else MiddlewareResult.rejected ApiError.ApiKeyInvalid

/-- C9: a request without the `api_key` header is rejected with
`ApiKeyMissing`, whose HTTP status is 400; a request with a key differing
from `api_token` is rejected with `ApiKeyInvalid`, whose HTTP status is
401; and a request whose key equals `api_token` is the only one forwarded
to the route handler. -/
theorem C9_api_key_middleware (api_token api_key : String) :
    validate_api_key none api_token =
      MiddlewareResult.rejected ApiError.ApiKeyMissing ∧
    apiErrorStatusCode ApiError.ApiKeyMissing = 400 ∧
    (api_key ≠ api_token →
      validate_api_key (some api_key) api_token =
        MiddlewareResult.rejected ApiError.ApiKeyInvalid) ∧
    apiErrorStatusCode ApiError.ApiKeyInvalid = 401 ∧
    validate_api_key (some api_token) api_token = MiddlewareResult.forwarded := by
  refine ⟨rfl, rfl, ?_, rfl, ?_⟩
  · intro hne
    unfold validate_api_key api_token_valid
    simp [hne]
  · unfold validate_api_key api_token_valid
    simp

/-- C9 witness: with token "secret", the missing header is a 400
`ApiKeyMissing`, the wrong key "guess" is a 401 `ApiKeyInvalid`, and the
right key is forwarded. -/
theorem C9_api_key_middleware_witness :
    validate_api_key none "secret" =
      MiddlewareResult.rejected ApiError.ApiKeyMissing ∧
    validate_api_key (some "guess") "secret" =
      MiddlewareResult.rejected ApiError.ApiKeyInvalid ∧
    validate_api_key (some "secret") "secret" = MiddlewareResult.forwarded := by
  have h := C9_api_key_middleware "secret" "guess"
  exact ⟨h.1, h.2.2.1 (by decide), h.2.2.2.2⟩

end JobHub
